import Mathlib

/-!
Verification of the iMessage image-embedding pipeline and the Streamlit
query surfaces (`scripts/embed-images.py`, `streamlit/app.py`,
`streamlit/pages/browse.py`).

The Python source is shallowly embedded: the sqlite archive is a list of
joined rows, the filesystem and the CLIP model are oracle parameters
(`fs`, `loadImg`, `features`), Elasticsearch writes are collected into a
list of `(doc_id, document)` pairs, and the persisted JSON cursor file is
an explicit `State` value threaded through the run.
-/

namespace ImSearch

/-- The persisted cursor (`~/.imessage-mcp/image_state.json`).  The source
also stores a `last_run` ISO timestamp, a display-only value produced by
`datetime.now()`; it is not modelled.  Source: `load_state` / `save_state`
defaults in `scripts/embed-images.py` lines 37-49. -/
structure State where
  last_attachment_rowid : Nat
  total_images_embedded : Nat
deriving DecidableEq, Repr

/-- The condition of the state file on disk, as seen by `load_state`:
absent, present but undecodable (`json.load` raises), or valid. -/
inductive StateFile
  | missing
  | corrupt
  | valid (s : State)
deriving DecidableEq

/-- `load_state` (`embed-images.py` lines 37-42).  If the file exists the
function returns `json.load(f)` with no surrounding try/except, so a
decoding or I/O error on an existing file propagates as an exception,
modelled as `Except.error`.  A missing file yields the zero default. -/
def load_state : StateFile → Except String State
  | .missing => .ok { last_attachment_rowid := 0, total_images_embedded := 0 }
  | .corrupt => .error "json.load raised; exception propagates"
  | .valid s => .ok s

/-- `mac_to_unix` (`embed-images.py` lines 52-56).  Mac absolute time to
Unix epoch.  For `mac_time > 1e12` the source divides by `1e9` in Python
float arithmetic before adding the offset and truncating with `int`;
that branch is modelled with integer division (exact for the magnitudes
the int branch of the claim concerns).  For `mac_time ≤ 1e12` the source
computes `int(mac_time + 978307200)` on exact Python integers. -/
def mac_to_unix (mac_time : Int) : Int :=
  if mac_time > 10 ^ 12 then mac_time / 10 ^ 9 + 978307200
  else mac_time + 978307200

/-- A row of the joined attachment query (`embed-images.py` lines 157-188):
`attachment` LEFT JOINed with `message_attachment_join`, `message`,
`chat_message_join` and `chat`.  Nullable SQL columns are `Option`s. -/
structure DbRow where
  rowid : Nat
  guid : String
  filename : Option String
  mime_type : Option String
  created_date : Option Int
  transfer_name : Option String
  total_bytes : Option Nat
  message_rowid : Option Nat
  chat_identifier : Option String
deriving DecidableEq, Repr

/-- The filename-suffix allow-list of the SQL `WHERE` clause
(`embed-images.py` lines 177-185). -/
def IMAGE_SUFFIXES : List String :=
  [".jpg", ".jpeg", ".png", ".gif", ".heic", ".heif", ".webp", ".tiff", ".bmp"]

/-- ASCII lowercasing of a string's characters, used to model SQLite's
ASCII-case-insensitive `LIKE`. -/
def lower_chars (s : String) : List Char := s.data.map Char.toLower

/-- Case-insensitive suffix test, modelling `column LIKE '%pat'`. -/
def like_suffix (s pat : String) : Bool := (lower_chars pat).isSuffixOf (lower_chars s)

/-- Case-insensitive prefix test, modelling `column LIKE 'pat%'`. -/
def like_prefix (s pat : String) : Bool := (lower_chars pat).isPrefixOf (lower_chars s)

/-- The MIME/extension disjunction of the SQL `WHERE` clause
(`embed-images.py` lines 175-186).  A NULL column makes its `LIKE` test
false. -/
def sql_like_image (r : DbRow) : Bool :=
  (match r.mime_type with
   | none => false
   | some m => like_prefix m "image/") ||
  (match r.filename with
   | none => false
   | some fn => IMAGE_SUFFIXES.any fun s => like_suffix fn s)

/-- The full row filter of the SQL query (`embed-images.py` lines
173-186): `filename IS NOT NULL AND ROWID > ? AND (image test)`. -/
def row_selected (since : Nat) (r : DbRow) : Bool :=
  r.filename.isSome && decide (since < r.rowid) && sql_like_image r

/-- The `LIMIT` clause is only appended when the Python value is truthy
(`if limit:` at `embed-images.py` line 190), so a limit of `0` means no
limit. -/
def apply_limit (limit : Option Nat) (l : List α) : List α :=
  match limit with
  | none => l
  | some n => if n = 0 then l else l.take n

/-- `created_at` normalization inside `get_image_attachments`
(`embed-images.py` line 206): `mac_to_unix(created_date) if created_date
else 0`, where Python truthiness sends both SQL NULL and `0` to `0`. -/
def created_at_of (created_date : Option Int) : Int :=
  match created_date with
  | none => 0
  | some c => if c = 0 then 0 else mac_to_unix c

/-- Python `x or default` on an optional string column: `None` and the
empty string are falsy. -/
def py_or_str (o : Option String) (d : String) : String :=
  match o with
  | none => d
  | some s => if s = "" then d else s

/-- One record of `get_image_attachments`'s result (`embed-images.py`
lines 199-209), with `filename` already resolved to a local path. -/
structure Attachment where
  rowid : Nat
  guid : String
  filename : String
  mime_type : String
  message_rowid : Option Nat
  chat_identifier : Option String
  created_at : Int
  transfer_name : Option String
  total_bytes : Nat
deriving DecidableEq, Repr

/-- The per-row body of the fetch loop (`embed-images.py` lines 196-209):
`resolve_path` (modelled by the filesystem oracle `fs`, which returns the
expanded path when the file exists) decides whether the row is kept. -/
def attachment_of_row (fs : String → Option String) (r : DbRow) : Option Attachment :=
  match r.filename with
  | none => none
  | some fn =>
    (fs fn).map fun path =>
      { rowid := r.rowid
        guid := r.guid
        filename := path
        mime_type := py_or_str r.mime_type "image/jpeg"
        message_rowid := r.message_rowid
        chat_identifier := r.chat_identifier
        created_at := created_at_of r.created_date
        transfer_name := r.transfer_name
        total_bytes := r.total_bytes.getD 0 }

/-- `get_image_attachments` (`embed-images.py` lines 151-212): SQL filter,
`ORDER BY ROWID ASC`, optional `LIMIT`, then per-row path resolution. -/
def get_image_attachments (db : List DbRow) (since : Nat) (limit : Option Nat)
    (fs : String → Option String) : List Attachment :=
  (apply_limit limit
    ((db.filter (row_selected since)).insertionSort fun a b => a.rowid ≤ b.rowid)).filterMap
    (attachment_of_row fs)

/-- `ImageEmbedder.embed_batch` (`embed-images.py` lines 113-148).  The
external collaborators are oracle parameters: `loadImg` is
`PIL.Image.open(path).convert("RGB")` (`none` when it raises), and
`features` is the CLIP forward pass plus L2 normalization, an opaque
per-image function (the spec treats the model as an opaque total
function; its batched invocation embeds each loaded image).  The source
collects the loadable images with their original indices, embeds them,
and scatters the vectors back into a `None`-initialised result list. -/
def embed_batch (loadImg : String → Option Img) (features : Img → Vec)
    (image_paths : List String) : List (Option Vec) :=
  let valid := image_paths.enum.filterMap fun ip => (loadImg ip.2).map fun im => (ip.1, im)
  if valid.isEmpty then List.replicate image_paths.length none
  else
    let embeddings := valid.map fun iv => (iv.1, features iv.2)
    embeddings.foldl (fun res ie => res.set ie.1 (some ie.2))
      (List.replicate image_paths.length none)

/-- The document identifier written to the index:
`doc_id = f"img_{attachment['guid']}"` (`embed-images.py` line 253). -/
def doc_id (a : Attachment) : String := "img_" ++ a.guid

/-- An index document as built by `create_image_documents`
(`embed-images.py` lines 256-278).  The source stores the timestamp
fields as ISO strings produced by `datetime.fromtimestamp(created_at)`
together with four calendar facts derived from the same value (`year`,
`month`, `day_of_week`, `hour_of_day`); those are external `datetime`
renderings of `created_at` and are carried here as the underlying epoch
value in `timestamp`, `start_timestamp`, `end_timestamp`. -/
structure Doc (Vec : Type) where
  text : String
  image_embedding : Vec
  sender : String
  sender_is_me : Bool
  participants : List String
  participant_count : Nat
  chat_id : String
  chat_name : Option String
  is_dm : Bool
  is_group_chat : Bool
  timestamp : Int
  has_attachment : Bool
  has_image : Bool
  chunk_id : String
  message_count : Nat
  start_timestamp : Int
  end_timestamp : Int
deriving DecidableEq, Repr

/-- The document body built for one attachment with a successful
embedding (`embed-images.py` lines 256-278). -/
def make_image_doc (a : Attachment) (v : Vec) : Doc Vec :=
  { text := "[Image: " ++ py_or_str a.transfer_name "attachment" ++ "]"
    image_embedding := v
    sender := "Unknown"
    sender_is_me := false
    participants := []
    participant_count := 0
    chat_id := py_or_str a.chat_identifier "unknown"
    chat_name := none
    is_dm := true
    is_group_chat := false
    timestamp := a.created_at
    has_attachment := true
    has_image := true
    chunk_id := doc_id a
    message_count := 1
    start_timestamp := a.created_at
    end_timestamp := a.created_at }

/-- `create_image_documents` (`embed-images.py` lines 245-289): zips the
batch with its embeddings, skips pairs whose embedding is `None`, and
emits one bulk-index operation `(doc_id, document)` per remaining pair. -/
def create_image_documents (atts : List Attachment) (embs : List (Option Vec)) :
    List (String × Doc Vec) :=
  (atts.zip embs).filterMap fun ae =>
    match ae.2 with
    | none => none
    | some v => some (doc_id ae.1, make_image_doc ae.1 v)

/-- Fuel-driven helper for `chunks`; the fuel is instantiated with the
list length, which always suffices for a positive chunk size. -/
def chunks_go (fuel n : Nat) (l : List α) : List (List α) :=
  match fuel, l with
  | _, [] => []
  | 0, l => [l]
  | fuel + 1, l => if n = 0 then [l] else l.take n :: chunks_go fuel n (l.drop n)

/-- The batching loop header `for i in range(0, len(attachments),
batch_size)` with `batch = attachments[i:i + batch_size]`
(`embed-images.py` lines 344-345).  Python raises on a zero step; the
claims assume a positive batch size, and the `n = 0` case is arbitrary. -/
def chunks (n : Nat) (l : List α) : List (List α) :=
  chunks_go l.length n l

/-- `max(a['rowid'] for a in batch)` (`embed-images.py` line 355): Python
`max` of the rowids of a (nonempty) batch. -/
def batch_max_rowid (batch : List Attachment) : Nat :=
  match batch with
  | [] => 0
  | a :: rest => rest.foldl (fun m x => max m x.rowid) a.rowid

/-- The parsed CLI flags of `main` (`embed-images.py` lines 293-299). -/
structure Args where
  full : Bool
  batch_size : Nat
  limit : Option Nat
  dry_run : Bool
deriving DecidableEq, Repr

/-- Observable outcome of one run of `main`: the cursor content persisted
on disk after the run (`finalState` equals the incoming state when
`save_state` was never called), whether `save_state` ran, and the bulk
operations sent to the index. -/
structure RunResult (Vec : Type) where
  finalState : State
  savedState : Bool
  written : List (String × Doc Vec)
deriving DecidableEq

/-- The body of one iteration of the batch loop (`embed-images.py` lines
344-359): embed the batch, count successes, fold the batch maximum into
`max_rowid`, and (unless `--dry-run`) send the documents to the index. -/
def run_step (loadImg : String → Option Img) (features : Img → Vec) (dry_run : Bool)
    (acc : Nat × Nat × List (String × Doc Vec)) (batch : List Attachment) :
    Nat × Nat × List (String × Doc Vec) :=
  let image_paths := batch.map (·.filename)
  let embeddings := embed_batch loadImg features image_paths
  let successful := (embeddings.filter fun e => e.isSome).length
  let ops := if dry_run then [] else create_image_documents batch embeddings
  (acc.1 + successful, max acc.2.1 (batch_max_rowid batch), acc.2.2 ++ ops)

/-- `main` (`embed-images.py` lines 292-375), from the point where the
archive and state are available: resolve the starting watermark (`0`
under `--full`), fetch attachments, return early with no save when none
were found, otherwise run the batch loop from
`(0, since_rowid, no writes)` and persist the new state.  Note that
`save_state` runs in dry-run mode too; only the index writes are gated
on `--dry-run`. -/
def pipeline_main (loadImg : String → Option Img) (features : Img → Vec)
    (fs : String → Option String) (db : List DbRow) (args : Args) (state : State) :
    RunResult Vec :=
  let since := if args.full then 0 else state.last_attachment_rowid
  let attachments := get_image_attachments db since args.limit fs
  if attachments.isEmpty then
    { finalState := state, savedState := false, written := [] }
  else
    let r := (chunks args.batch_size attachments).foldl
      (run_step loadImg features args.dry_run) (0, since, [])
    { finalState :=
        { last_attachment_rowid := r.2.1
          total_images_embedded := state.total_images_embedded + r.1 }
      savedState := true
      written := r.2.2 }

/-- A payload filter clause of the vector-database request, as built by
both Streamlit surfaces: an exact `match` on a string field, a `match`
on a boolean field, or one side of a numeric `range`. -/
inductive Clause
  | matchStr (key : String) (value : String)
  | matchBool (key : String) (value : Bool)
  | rangeGte (key : String) (bound : Int)
  | rangeLte (key : String) (bound : Int)
deriving DecidableEq, Repr

/-- The filter list built by the search page (`streamlit/app.py` lines
131-149), inside the `if query:` branch, so always alongside a query
vector.  `if person_filter:` is Python truthiness (empty string means no
clause); a complete two-ended date range contributes two clauses. -/
def app_filter_conditions (person_filter : String) (date_range : Option (Int × Int)) :
    List Clause :=
  (if person_filter = "" then [] else [Clause.matchStr "participants" person_filter]) ++
  (match date_range with
   | some se => [Clause.rangeGte "start_ts" se.1, Clause.rangeLte "end_ts" se.2]
   | none => [])

/-- The nearest-neighbour request issued by the search page
(`streamlit/app.py` lines 151-160): a query vector, the conjunctive
filter (or `None` when no clause was built), and the result cap. -/
structure QueryRequest (Vec : Type) where
  vector : Vec
  filter : Option (List Clause)
  limit : Nat
deriving DecidableEq

/-- The search request construction (`streamlit/app.py` lines 151-160). -/
def app_search_request (qvec : Vec) (person_filter : String)
    (date_range : Option (Int × Int)) (result_count : Nat) : QueryRequest Vec :=
  let fc := app_filter_conditions person_filter date_range
  { vector := qvec
    filter := if fc.isEmpty then none else some fc
    limit := result_count }

/-- The filter list built by the browse page (`streamlit/pages/browse.py`
lines 69-84).  The page offers person, group-name and group-only
filters; it has no date-range input at all. -/
def browse_filter_conditions (filter_person filter_group : String) (only_groups : Bool) :
    List Clause :=
  (if filter_person = "" then [] else [Clause.matchStr "participants" filter_person]) ++
  (if filter_group = "" then [] else [Clause.matchStr "group_name" filter_group]) ++
  (if only_groups then [Clause.matchBool "is_group_chat" true] else [])

/-- The scroll request issued by the browse page (`streamlit/pages/browse.py`
lines 86, 111-118): `qdrant.scroll` carries a filter and a page size and
no query vector (no vector ranking). -/
structure ScrollRequest where
  filter : Option (List Clause)
  limit : Nat
deriving DecidableEq

/-- The browse request construction (`streamlit/pages/browse.py` lines
86, 111-118). -/
def browse_scroll_request (filter_person filter_group : String) (only_groups : Bool)
    (page_size : Nat) : ScrollRequest :=
  let fc := browse_filter_conditions filter_person filter_group only_groups
  { filter := if fc.isEmpty then none else some fc
    limit := page_size }

/-- Payload evaluation of the two clause shapes the browse filters can
produce against a stored document: a `participants` match holds when the
value occurs in the document's participants list, an `is_group_chat`
match compares the flag, a `group_name` match compares the stored chat
name.  Other keys are not produced by the modelled surfaces. -/
def clause_selects (d : Doc Vec) : Clause → Bool
  | .matchStr "participants" v => d.participants.contains v
  | .matchStr "group_name" v => d.chat_name == some v
  | .matchBool "is_group_chat" b => d.is_group_chat == b
  | _ => false

/-- The relative-time string of the search page (`streamlit/app.py` lines
186-199).  `days`/`seconds` are the components of a Python `timedelta`
(`seconds` is the sub-day remainder, `0 ≤ seconds < 86400`; `days` may
be negative for a timestamp in the future).  Integer division on the
positive branches matches Python floor division. -/
def relative (days : Int) (seconds : Nat) : String :=
  if days > 365 then toString (days / 365) ++ " years ago"
  else if days > 30 then toString (days / 30) ++ " months ago"
  else if days > 0 then toString days ++ " days ago"
  else if seconds > 3600 then toString (seconds / 3600) ++ " hours ago"
  else "recently"

/-- The relative-time string of the browse page (`streamlit/pages/browse.py`
lines 153-164).  Unlike the search page it has no hours branch: any
delta under one day renders as "today". -/
def ago (days : Int) (_seconds : Nat) : String :=
  if days > 365 then toString (days / 365) ++ "y ago"
  else if days > 30 then toString (days / 30) ++ "mo ago"
  else if days > 0 then toString days ++ "d ago"
  else "today"

/-- The threshold classes reachable by the two relative-time renderers;
`recent` stands for the terminal "recently"/"today" bucket. -/
inductive TimeClass
  | years
  | months
  | days
  | hours
  | recent
deriving DecidableEq, Repr

/-- The branch skeleton of `relative` (`streamlit/app.py` lines 186-199):
which threshold class a delta falls into on the search page. -/
def relative_class (days : Int) (seconds : Nat) : TimeClass :=
  if days > 365 then .years
  else if days > 30 then .months
  else if days > 0 then .days
  else if seconds > 3600 then .hours
  else .recent

/-- The branch skeleton of `ago` (`streamlit/pages/browse.py` lines
153-164): which threshold class a delta falls into on the browse page.
There is no hours branch. -/
def ago_class (days : Int) (_seconds : Nat) : TimeClass :=
  if days > 365 then .years
  else if days > 30 then .months
  else if days > 0 then .days
  else .recent

/-! Concrete fixtures used by witnesses and counterexamples. -/

/-- A one-row archive: a resolvable jpeg attachment with rowid 5. -/
def sample_db : List DbRow :=
  [{ rowid := 5
     guid := "g5"
     filename := some "photo.jpg"
     mime_type := some "image/jpeg"
     created_date := none
     transfer_name := none
     total_bytes := none
     message_rowid := none
     chat_identifier := none }]

/-- A resolved attachment record with external id "ABC123". -/
def sample_att : Attachment :=
  { rowid := 5
    guid := "ABC123"
    filename := "photo.jpg"
    mime_type := "image/jpeg"
    message_rowid := none
    chat_identifier := none
    created_at := 0
    transfer_name := none
    total_bytes := 0 }

/-- Filesystem oracle that resolves every path to itself. -/
def fs_id : String → Option String := fun p => some p

/-- Image-loading oracle over the trivial image type that succeeds on
every path. -/
def load_ok : String → Option Unit := fun _ => some ()

/-- Image-loading oracle that fails exactly on the path "c". -/
def load_skip_c : String → Option Unit := fun p => if p = "c" then none else some ()

/-- Trivial feature extractor over the trivial image/vector types. -/
def feat_unit : Unit → Unit := fun _ => ()

end ImSearch

namespace ImSearch

/-! ### Supporting lemmas -/

theorem valid_filterMap_nil {Img : Type} (loadImg : String → Option Img) :
    ∀ (ps : List String) (k : Nat),
      ((ps.enumFrom k).filterMap fun ip => (loadImg ip.2).map fun im => (ip.1, im)) = [] ↔
        ∀ p ∈ ps, loadImg p = none := by
  intro ps
  induction ps with
  | nil => simp
  | cons p ps ih =>
    intro k
    rw [List.enumFrom_cons, List.filterMap_cons]
    cases h : loadImg p with
    | some im => simp [h]
    | none =>
      simp only [h, Option.map_none']
      rw [ih (k + 1)]
      constructor
      · intro hall q hq
        rcases List.mem_cons.mp hq with rfl | hq
        · exact h
        · exact hall q hq
      · intro hall q hq
        exact hall q (List.mem_cons_of_mem _ hq)

theorem embed_batch_fold {Img Vec : Type} (loadImg : String → Option Img)
    (features : Img → Vec) :
    ∀ (ps : List String) (A : List (Option Vec)),
      ((((ps.enumFrom A.length).filterMap fun ip =>
            (loadImg ip.2).map fun im => (ip.1, im)).map fun iv =>
          (iv.1, features iv.2)).foldl (fun res ie => res.set ie.1 (some ie.2))
        (A ++ List.replicate ps.length none)) =
      A ++ ps.map fun p => (loadImg p).map features := by
  intro ps
  induction ps with
  | nil => intro A; simp
  | cons p ps ih =>
    intro A
    rw [List.enumFrom_cons, List.filterMap_cons]
    cases h : loadImg p with
    | none =>
      simp only [h, Option.map_none', List.map_cons, List.length_cons,
        List.replicate_succ]
      have hA : A ++ none :: List.replicate ps.length none =
          (A ++ [none]) ++ List.replicate ps.length (none : Option Vec) := by
        simp
      rw [hA]
      have hlen : A.length + 1 = (A ++ [(none : Option Vec)]).length := by simp
      rw [hlen, ih (A ++ [none])]
      simp
    | some im =>
      simp only [h, Option.map_some', List.map_cons, List.foldl_cons,
        List.length_cons, List.replicate_succ]
      rw [List.set_append_right _ _ (Nat.le_refl _), Nat.sub_self,
        List.set_cons_zero]
      have hA : A ++ some (features im) :: List.replicate ps.length none =
          (A ++ [some (features im)]) ++ List.replicate ps.length (none : Option Vec) := by
        simp
      rw [hA]
      have hlen : A.length + 1 = (A ++ [some (features im)]).length := by simp
      rw [hlen, ih (A ++ [some (features im)])]
      simp

theorem embed_batch_eq_map {Img Vec : Type} (loadImg : String → Option Img)
    (features : Img → Vec) (image_paths : List String) :
    embed_batch loadImg features image_paths =
      image_paths.map fun p => (loadImg p).map features := by
  unfold embed_batch
  by_cases hv :
      (image_paths.enum.filterMap fun ip => (loadImg ip.2).map fun im => (ip.1, im)) = []
  · have hall := (valid_filterMap_nil loadImg image_paths 0).mp hv
    simp only [hv, List.isEmpty_nil, if_true]
    symm
    rw [List.eq_replicate_iff]
    refine ⟨by simp, ?_⟩
    intro b hb
    obtain ⟨p, hp, rfl⟩ := List.mem_map.mp hb
    rw [hall p hp]
    rfl
  · rw [if_neg (by simpa [List.isEmpty_iff] using hv)]
    have := embed_batch_fold loadImg features image_paths []
    simpa using this

end ImSearch

namespace ImSearch

/-! ### Claim theorems -/

/-- C4: `embed_batch` returns a sequence of the same length and order as
its input, with `none` exactly at the positions of resources that fail
to load and a vector at every other position; one unreadable resource
does not abort the batch.  Stated pointwise: the entry at each position
`i` is `some ((loadImg p).map features)` for the path `p` at position
`i`, hence `none` inside exactly when loading `p` failed. -/
theorem c4_embed_batch_isolation {Img Vec : Type} (loadImg : String → Option Img)
    (features : Img → Vec) (image_paths : List String) :
    (embed_batch loadImg features image_paths).length = image_paths.length ∧
    ∀ (i : Nat) (p : String), image_paths[i]? = some p →
      (embed_batch loadImg features image_paths)[i]? =
        some ((loadImg p).map features) := by
  rw [embed_batch_eq_map]
  refine ⟨List.length_map _ _, ?_⟩
  intro i p hp
  rw [List.getElem?_map, hp]
  rfl

/-- C4 witness: a batch of 5 paths where only the third fails to load
yields a length-5 result with exactly one `none`, at index 2. -/
theorem c4_witness :
    (["a", "b", "c", "d", "e"][2]? = some "c") ∧
    (embed_batch load_skip_c feat_unit ["a", "b", "c", "d", "e"])[2]? = some none ∧
    embed_batch load_skip_c feat_unit ["a", "b", "c", "d", "e"] =
      [some (), some (), none, some (), some ()] := by
  refine ⟨rfl, ?_, by decide⟩
  have h := (c4_embed_batch_isolation load_skip_c feat_unit
    ["a", "b", "c", "d", "e"]).2 2 "c" rfl
  simpa [load_skip_c] using h

/-- C3: every bulk operation produced by `create_image_documents` targets
the document id `"img_" ++ guid` of one of the input attachments, and
the document id is a pure function of the external id (so re-processing
the same record always targets the same document). -/
theorem c3_doc_id_deterministic {Vec : Type} (atts : List Attachment)
    (embs : List (Option Vec)) :
    (∀ p ∈ create_image_documents atts embs, ∃ a ∈ atts, p.1 = "img_" ++ a.guid) ∧
    (∀ a1 a2 : Attachment, a1.guid = a2.guid → doc_id a1 = doc_id a2) := by
  constructor
  · intro p hp
    simp only [create_image_documents, List.mem_filterMap] at hp
    obtain ⟨⟨a, e⟩, hmem, hmk⟩ := hp
    cases e with
    | none => simp at hmk
    | some v =>
      simp only [Option.some.injEq] at hmk
      refine ⟨a, (List.of_mem_zip hmem).1, ?_⟩
      rw [← hmk]
      rfl
  · intro a1 a2 h
    simp [doc_id, h]

/-- C3 witness: a concrete attachment with guid "ABC123" yields the
document id "img_ABC123". -/
theorem c3_witness :
    ∃ a ∈ [sample_att],
      (Prod.fst (α := String) (β := Doc Unit)
        ("img_ABC123", make_image_doc sample_att ())) = "img_" ++ a.guid :=
  (c3_doc_id_deterministic [sample_att] [some ()]).1
    ("img_ABC123", make_image_doc sample_att ()) (by decide)

/-- C9: every document the pipeline creates carries the fixed payload
values sender = "Unknown", sender_is_me = false, participants = [],
is_dm = true, is_group_chat = false, has_image = true; consequently no
participant-match clause and no `is_group_chat = true` clause can select
such a document. -/
theorem c9_fixed_payload {Vec : Type} (atts : List Attachment) (embs : List (Option Vec))
    (p : String × Doc Vec) (hp : p ∈ create_image_documents atts embs) :
    p.2.sender = "Unknown" ∧ p.2.sender_is_me = false ∧ p.2.participants = [] ∧
    p.2.is_dm = true ∧ p.2.is_group_chat = false ∧ p.2.has_image = true ∧
    (∀ v : String, clause_selects p.2 (Clause.matchStr "participants" v) = false) ∧
    clause_selects p.2 (Clause.matchBool "is_group_chat" true) = false := by
  simp only [create_image_documents, List.mem_filterMap] at hp
  obtain ⟨⟨a, e⟩, hmem, hmk⟩ := hp
  cases e with
  | none => simp at hmk
  | some v =>
    simp only [Option.some.injEq] at hmk
    rw [← hmk]
    exact ⟨rfl, rfl, rfl, rfl, rfl, rfl, fun _ => rfl, rfl⟩

/-- C9 witness: the document built from a concrete attachment has the
fixed payload and is selected by neither filter. -/
theorem c9_witness :
    (make_image_doc sample_att ()).sender = "Unknown" ∧
    (make_image_doc sample_att ()).sender_is_me = false ∧
    (make_image_doc sample_att ()).participants = [] ∧
    (make_image_doc sample_att ()).is_dm = true ∧
    (make_image_doc sample_att ()).is_group_chat = false ∧
    (make_image_doc sample_att ()).has_image = true ∧
    (∀ v : String,
      clause_selects (make_image_doc sample_att ())
        (Clause.matchStr "participants" v) = false) ∧
    clause_selects (make_image_doc sample_att ())
      (Clause.matchBool "is_group_chat" true) = false :=
  c9_fixed_payload [sample_att] [some ()]
    (doc_id sample_att, make_image_doc sample_att ()) (by decide)

/-- C10: for every integer Mac timestamp `0 < m ≤ 1e12`, `mac_to_unix m`
is exactly `m + 978307200`; above `1e12` the value is first divided by
`1e9`; and a record whose `created_date` is NULL or `0` gets
`created_at = 0`. -/
theorem c10_mac_to_unix :
    (∀ m : Int, 0 < m → m ≤ 10 ^ 12 → mac_to_unix m = m + 978307200) ∧
    (∀ m : Int, m > 10 ^ 12 → mac_to_unix m = m / 10 ^ 9 + 978307200) ∧
    created_at_of none = 0 ∧ created_at_of (some 0) = 0 := by
  refine ⟨?_, ?_, rfl, rfl⟩
  · intro m _ h2
    rw [mac_to_unix, if_neg (by omega)]
  · intro m h1
    rw [mac_to_unix, if_pos h1]

/-- C10 witness: `mac_to_unix 1000 = 978308200` and a NULL
`created_date` yields `created_at = 0`. -/
theorem c10_witness :
    mac_to_unix 1000 = 978308200 ∧ created_at_of none = 0 :=
  ⟨(c10_mac_to_unix.1 1000 (by norm_num) (by norm_num)).trans (by norm_num),
   c10_mac_to_unix.2.2.1⟩

/-- C5 counterexample: `load_state` does fail when prior state exists but
cannot be decoded — the source has no try/except around `json.load`, so
the error propagates instead of being treated as "no prior state". -/
theorem c5_counterexample :
    ¬ ∃ s : State, load_state StateFile.corrupt = Except.ok s := by
  rintro ⟨s, h⟩
  simp [load_state] at h

/-- C5 (amended): `load_state` returns the zero default
`{watermark 0, total 0}` when no state file exists and returns the
stored cursor when it decodes; but an I/O or decoding error on an
existing file propagates (aborting the run) rather than being treated
as "no prior state". -/
theorem c5_load_state_amended :
    load_state StateFile.missing =
      Except.ok { last_attachment_rowid := 0, total_images_embedded := 0 } ∧
    (∀ s : State, load_state (StateFile.valid s) = Except.ok s) ∧
    load_state StateFile.corrupt =
      Except.error "json.load raised; exception propagates" :=
  ⟨rfl, fun _ => rfl, rfl⟩

/-- C5 witness: loading a concrete stored cursor returns it unchanged. -/
theorem c5_witness :
    load_state (StateFile.valid { last_attachment_rowid := 9, total_images_embedded := 4 }) =
      Except.ok { last_attachment_rowid := 9, total_images_embedded := 4 } :=
  c5_load_state_amended.2.1 _

/-- C6 counterexample: on the no-query (browse) path, a person filter
with no group filter and group_only false yields exactly ONE filter
clause (the participant match), not two — the browse surface has no
date-range input, so no timestamp clause can be produced. -/
theorem c6_counterexample :
    browse_filter_conditions "John" "" false =
      [Clause.matchStr "participants" "John"] ∧
    (browse_filter_conditions "John" "" false).length ≠ 2 := by
  decide

/-- C6 (amended): resolving a request with no free-text query (the
browse scroll path) and a person filter with group_only false produces
exactly one filter clause — a participant match — and no vector
component (the scroll request carries no vector); an inclusive date
range is only available on the search path, where it contributes a
timestamp lower bound and upper bound alongside the participant match
(three clauses) and a query vector. -/
theorem c6_filter_amended (p : String) (hp : p ≠ "") (t0 t1 : Int) (page_size : Nat) :
    browse_filter_conditions p "" false = [Clause.matchStr "participants" p] ∧
    (browse_scroll_request p "" false page_size).filter =
      some [Clause.matchStr "participants" p] ∧
    (browse_scroll_request p "" false page_size).limit = page_size ∧
    app_filter_conditions p (some (t0, t1)) =
      [Clause.matchStr "participants" p, Clause.rangeGte "start_ts" t0,
       Clause.rangeLte "end_ts" t1] := by
  refine ⟨?_, ?_, rfl, ?_⟩ <;>
    simp [browse_filter_conditions, browse_scroll_request, app_filter_conditions, hp]

/-- C6 witness: the amended statement at person "John", date range
(0, 100), page size 25. -/
theorem c6_witness :
    browse_filter_conditions "John" "" false =
      [Clause.matchStr "participants" "John"] ∧
    (browse_scroll_request "John" "" false 25).filter =
      some [Clause.matchStr "participants" "John"] ∧
    (browse_scroll_request "John" "" false 25).limit = 25 ∧
    app_filter_conditions "John" (some (0, 100)) =
      [Clause.matchStr "participants" "John", Clause.rangeGte "start_ts" 0,
       Clause.rangeLte "end_ts" 100] :=
  c6_filter_amended "John" (by decide) 0 100 25

/-- C8 counterexample: for a delta of 0 days and 7200 seconds (a
timestamp two hours in the past), the search page classifies "hours"
("2 hours ago") while the browse page, which has no hours branch,
classifies the terminal bucket ("today") — the two contexts do NOT
assign the same threshold class for every timestamp. -/
theorem c8_counterexample :
    relative_class 0 7200 = TimeClass.hours ∧
    ago_class 0 7200 = TimeClass.recent ∧
    relative_class 0 7200 ≠ ago_class 0 7200 ∧
    relative 0 7200 = "2 hours ago" ∧
    ago 0 7200 = "today" := by
  decide

/-- C8 (amended): the search page's `relative` uses the fixed thresholds
>365 days → years, >30 days → months, >0 days → days, >3600 seconds →
hours, else "recently"; the browse page's `ago` uses the same day
thresholds but has NO hours branch, rendering "today" for any delta
under one day; deltas of exactly 366, 31, 1 and 0 days classify as
1 year, 1 month, 1 day and recently/today in both contexts; and the two
contexts assign the same threshold class whenever the delta exceeds one
day or is at most one hour (they diverge between one hour and one
day). -/
theorem c8_relative_time_amended :
    (relative 366 0 = "1 years ago" ∧ relative 31 0 = "1 months ago" ∧
     relative 1 0 = "1 days ago" ∧ relative 0 0 = "recently" ∧
     relative 0 7200 = "2 hours ago") ∧
    (ago 366 0 = "1y ago" ∧ ago 31 0 = "1mo ago" ∧
     ago 1 0 = "1d ago" ∧ ago 0 0 = "today" ∧ ago 0 7200 = "today") ∧
    (∀ (d : Int) (s : Nat), 0 < d ∨ s ≤ 3600 →
      relative_class d s = ago_class d s) := by
  refine ⟨by decide, by decide, ?_⟩
  intro d s h
  unfold relative_class ago_class
  split_ifs <;> first
    | rfl
    | (exfalso; rcases h with h | h <;> omega)

/-- C8 witness: the amended class agreement at a concrete delta of five
days. -/
theorem c8_witness : relative_class 5 0 = ago_class 5 0 :=
  c8_relative_time_amended.2.2 5 0 (Or.inl (by norm_num))

/-! ### Pipeline-driver lemmas -/

theorem chunks_go_flatten {α : Type} (n : Nat) :
    ∀ (fuel : Nat) (l : List α), l.length ≤ fuel → (chunks_go fuel n l).flatten = l := by
  intro fuel
  induction fuel with
  | zero =>
    intro l hl
    have : l = [] := List.eq_nil_of_length_eq_zero (Nat.le_zero.mp hl)
    subst this
    rfl
  | succ fuel ih =>
    intro l hl
    cases l with
    | nil => rfl
    | cons a as =>
      show (if n = 0 then [a :: as]
        else (a :: as).take n :: chunks_go fuel n ((a :: as).drop n)).flatten = a :: as
      split_ifs with hn
      · simp
      · rw [List.flatten_cons, ih]
        · exact List.take_append_drop n (a :: as)
        · have : n ≠ 0 := hn
          simp only [List.length_drop, List.length_cons]
          simp only [List.length_cons] at hl
          omega

theorem chunks_flatten {α : Type} (n : Nat) (l : List α) : (chunks n l).flatten = l :=
  chunks_go_flatten n l.length l (Nat.le_refl _)

theorem chunks_go_ne_nil {α : Type} (n : Nat) :
    ∀ (fuel : Nat) (l : List α), l ≠ [] → ∀ b ∈ chunks_go fuel n l, b ≠ [] := by
  intro fuel
  induction fuel with
  | zero =>
    intro l hl b hb
    cases l with
    | nil => exact absurd rfl hl
    | cons a as =>
      rcases List.mem_singleton.mp hb with rfl
      exact hl
  | succ fuel ih =>
    intro l hl b hb
    cases l with
    | nil => exact absurd rfl hl
    | cons a as =>
      rw [show chunks_go (fuel + 1) n (a :: as) = if n = 0 then [a :: as]
        else (a :: as).take n :: chunks_go fuel n ((a :: as).drop n) from rfl] at hb
      split_ifs at hb with hn
      · rcases List.mem_singleton.mp hb with rfl
        exact hl
      · rcases List.mem_cons.mp hb with rfl | hb
        · cases n with
          | zero => exact absurd rfl hn
          | succ m => simp
        · by_cases hd : (a :: as).drop n = []
          · rw [hd] at hb
            cases fuel <;> simp [chunks_go] at hb
          · exact ih _ hd b hb

theorem chunks_ne_nil {α : Type} (n : Nat) (l : List α) (hl : l ≠ [])
    (b : List α) (hb : b ∈ chunks n l) : b ≠ [] :=
  chunks_go_ne_nil n l.length l hl b hb

theorem run_fold_fst {Img Vec : Type} (loadImg : String → Option Img)
    (features : Img → Vec) (dry : Bool) :
    ∀ (bs : List (List Attachment)) (t m : Nat) (ds : List (String × Doc Vec)),
      (bs.foldl (run_step loadImg features dry) (t, m, ds)).1 =
        bs.foldl
          (fun t' b => t' +
            ((embed_batch loadImg features (b.map (·.filename))).filter fun e =>
              e.isSome).length) t := by
  intro bs
  induction bs with
  | nil => intro t m ds; rfl
  | cons b bs ih =>
    intro t m ds
    rw [List.foldl_cons, List.foldl_cons]
    exact ih _ _ _

theorem run_fold_max {Img Vec : Type} (loadImg : String → Option Img)
    (features : Img → Vec) (dry : Bool) :
    ∀ (bs : List (List Attachment)) (t m : Nat) (ds : List (String × Doc Vec)),
      (bs.foldl (run_step loadImg features dry) (t, m, ds)).2.1 =
        bs.foldl (fun m' b => max m' (batch_max_rowid b)) m := by
  intro bs
  induction bs with
  | nil => intro t m ds; rfl
  | cons b bs ih =>
    intro t m ds
    rw [List.foldl_cons, List.foldl_cons]
    exact ih _ _ _

theorem run_fold_written_dry {Img Vec : Type} (loadImg : String → Option Img)
    (features : Img → Vec) :
    ∀ (bs : List (List Attachment)) (t m : Nat) (ds : List (String × Doc Vec)),
      (bs.foldl (run_step loadImg features true) (t, m, ds)).2.2 = ds := by
  intro bs
  induction bs with
  | nil => intro t m ds; rfl
  | cons b bs ih =>
    intro t m ds
    rw [List.foldl_cons]
    exact (ih _ _ _).trans (List.append_nil ds)

theorem foldl_max_hoist {α : Type} (r : α → Nat) :
    ∀ (t : List α) (acc i : Nat),
      t.foldl (fun m a => max m (r a)) (max acc i) =
        max acc (t.foldl (fun m a => max m (r a)) i) := by
  intro t
  induction t with
  | nil => intro acc i; rfl
  | cons a t ih =>
    intro acc i
    rw [List.foldl_cons, List.foldl_cons, Nat.max_assoc]
    exact ih acc (max i (r a))

theorem le_foldl_max {α : Type} (r : α → Nat) :
    ∀ (l : List α) (i : Nat), i ≤ l.foldl (fun m a => max m (r a)) i := by
  intro l
  induction l with
  | nil => intro i; exact Nat.le_refl i
  | cons a t ih =>
    intro i
    rw [List.foldl_cons]
    exact Nat.le_trans (Nat.le_max_left i (r a)) (ih (max i (r a)))

theorem foldl_max_ge {α : Type} (r : α → Nat) :
    ∀ (l : List α) (i : Nat) (a : α), a ∈ l →
      r a ≤ l.foldl (fun m a => max m (r a)) i := by
  intro l
  induction l with
  | nil => intro i a ha; simp at ha
  | cons b t ih =>
    intro i a ha
    rw [List.foldl_cons]
    rcases List.mem_cons.mp ha with rfl | ha
    · exact Nat.le_trans (Nat.le_max_right i (r a)) (le_foldl_max r t (max i (r a)))
    · exact ih _ a ha

theorem foldl_max_attained {α : Type} (r : α → Nat) :
    ∀ (l : List α) (i : Nat),
      l.foldl (fun m a => max m (r a)) i = i ∨
        ∃ a ∈ l, l.foldl (fun m a => max m (r a)) i = r a := by
  intro l
  induction l with
  | nil => intro i; exact Or.inl rfl
  | cons b t ih =>
    intro i
    rw [List.foldl_cons]
    rcases ih (max i (r b)) with h | ⟨a, ha, h⟩
    · rcases max_choice i (r b) with hc | hc
      · exact Or.inl (h.trans hc)
      · exact Or.inr ⟨b, List.mem_cons_self b t, h.trans hc⟩
    · exact Or.inr ⟨a, List.mem_cons_of_mem b ha, h⟩

theorem batches_max_eq :
    ∀ (bs : List (List Attachment)) (i : Nat), (∀ b ∈ bs, b ≠ []) →
      bs.foldl (fun m b => max m (batch_max_rowid b)) i =
        bs.flatten.foldl (fun m a => max m a.rowid) i := by
  intro bs
  induction bs with
  | nil => intro i _; rfl
  | cons b bs ih =>
    intro i hne
    rw [List.foldl_cons, List.flatten_cons, List.foldl_append]
    have hb : b ≠ [] := hne b (List.mem_cons_self b bs)
    obtain ⟨a, rest, rfl⟩ : ∃ a rest, b = a :: rest := by
      cases b with
      | nil => exact absurd rfl hb
      | cons a rest => exact ⟨a, rest, rfl⟩
    have hhead : max i (batch_max_rowid (a :: rest)) =
        (a :: rest).foldl (fun m x => max m x.rowid) i := by
      rw [List.foldl_cons]
      show max i (rest.foldl (fun m x => max m x.rowid) a.rowid) =
        rest.foldl (fun m x => max m x.rowid) (max i a.rowid)
      exact (foldl_max_hoist (fun x => x.rowid) rest i a.rowid).symm
    rw [hhead]
    exact ih _ fun b' hb' => hne b' (List.mem_cons_of_mem _ hb')

theorem attachment_of_row_rowid {fs : String → Option String} {r : DbRow}
    {a : Attachment} (h : attachment_of_row fs r = some a) : a.rowid = r.rowid := by
  unfold attachment_of_row at h
  cases hf : r.filename with
  | none => rw [hf] at h; simp at h
  | some fn =>
    rw [hf] at h
    obtain ⟨path, _, rfl⟩ := Option.map_eq_some'.mp h
    rfl

theorem mem_get_image_attachments {db : List DbRow} {since : Nat} {limit : Option Nat}
    {fs : String → Option String} {a : Attachment}
    (ha : a ∈ get_image_attachments db since limit fs) : since < a.rowid := by
  unfold get_image_attachments at ha
  obtain ⟨r, hr, hra⟩ := List.mem_filterMap.mp ha
  have hr2 : r ∈ (db.filter (row_selected since)).insertionSort
      (fun a b => a.rowid ≤ b.rowid) := by
    cases limit with
    | none => exact hr
    | some n =>
      simp only [apply_limit] at hr
      split_ifs at hr
      · exact hr
      · exact List.take_subset n _ hr
  have hr3 : r ∈ db.filter (row_selected since) :=
    (List.mem_insertionSort _).mp hr2
  have hsel : row_selected since r = true := List.of_mem_filter hr3
  have hlt : since < r.rowid := by
    unfold row_selected at hsel
    simp only [Bool.and_eq_true, decide_eq_true_eq] at hsel
    exact hsel.1.2
  rw [attachment_of_row_rowid hra]
  exact hlt

theorem get_image_attachments_nil (db : List DbRow) (since : Nat) (limit : Option Nat)
    (fs : String → Option String) (h : ∀ r ∈ db, r.rowid ≤ since) :
    get_image_attachments db since limit fs = [] := by
  have hf : db.filter (row_selected since) = [] := by
    rw [List.filter_eq_nil_iff]
    intro r hr hsel
    unfold row_selected at hsel
    simp only [Bool.and_eq_true, decide_eq_true_eq] at hsel
    exact absurd hsel.1.2 (Nat.not_lt.mpr (h r hr))
  rw [get_image_attachments, hf]
  cases limit <;> simp [apply_limit, List.insertionSort]

/-! ### Pipeline claim theorems -/

/-- C1 counterexample: the claim quantifies over every run of `main`,
but a `--full` run resets the starting watermark to 0 without taking the
old watermark into the new maximum, so the persisted watermark can
decrease: a full run over an archive whose only image attachment has
rowid 5, starting from a persisted watermark of 100, saves watermark 5. -/
theorem c1_counterexample :
    (pipeline_main load_ok feat_unit fs_id sample_db
      { full := true, batch_size := 50, limit := none, dry_run := false }
      { last_attachment_rowid := 100, total_images_embedded := 7 }).savedState = true ∧
    (pipeline_main load_ok feat_unit fs_id sample_db
      { full := true, batch_size := 50, limit := none, dry_run := false }
      { last_attachment_rowid := 100, total_images_embedded := 7 }).finalState.last_attachment_rowid
      = 5 ∧
    (5 : Nat) < 100 := by
  decide

/-- C1 (amended): for every run of `main` WITHOUT the full-reindex flag,
the persisted watermark at the end of the run is ≥ its value before the
run, and — whenever any records were fetched — it equals the maximum
record id among the fetched records (an upper bound on all fetched
rowids that is attained by one of them), for every image-loading and
embedding oracle (so including records whose embedding failed). -/
theorem c1_watermark_monotone {Img Vec : Type} (loadImg : String → Option Img)
    (features : Img → Vec) (fs : String → Option String) (db : List DbRow)
    (args : Args) (st : State) (hfull : args.full = false)
    (_hbs : 0 < args.batch_size) :
    st.last_attachment_rowid ≤
      (pipeline_main loadImg features fs db args st).finalState.last_attachment_rowid ∧
    (get_image_attachments db st.last_attachment_rowid args.limit fs ≠ [] →
      (∀ a ∈ get_image_attachments db st.last_attachment_rowid args.limit fs,
        a.rowid ≤
          (pipeline_main loadImg features fs db args st).finalState.last_attachment_rowid) ∧
      ∃ a ∈ get_image_attachments db st.last_attachment_rowid args.limit fs,
        a.rowid =
          (pipeline_main loadImg features fs db args st).finalState.last_attachment_rowid) := by
  have hsince : (if args.full = true then 0 else st.last_attachment_rowid) =
      st.last_attachment_rowid := by rw [hfull]; rfl
  by_cases hemp : get_image_attachments db st.last_attachment_rowid args.limit fs = []
  · have hres : pipeline_main loadImg features fs db args st =
        { finalState := st, savedState := false, written := [] } := by
      unfold pipeline_main
      simp only [hsince, hemp, List.isEmpty_nil, if_true]
    rw [hres]
    exact ⟨Nat.le_refl _, fun hne => absurd hemp hne⟩
  · have hne : (get_image_attachments db st.last_attachment_rowid
        args.limit fs).isEmpty = false := List.isEmpty_eq_false.mpr hemp
    have hres : (pipeline_main loadImg features fs db args st).finalState.last_attachment_rowid =
        (get_image_attachments db st.last_attachment_rowid args.limit fs).foldl
          (fun m a => max m a.rowid) st.last_attachment_rowid := by
      unfold pipeline_main
      simp only [hsince, hne, Bool.false_eq_true, if_false]
      rw [run_fold_max, batches_max_eq _ _ (chunks_ne_nil _ _ hemp), chunks_flatten]
    rw [hres]
    refine ⟨le_foldl_max _ _ _, fun _ => ⟨fun a ha => foldl_max_ge _ _ _ a ha, ?_⟩⟩
    rcases foldl_max_attained (fun a : Attachment => a.rowid)
        (get_image_attachments db st.last_attachment_rowid args.limit fs)
        st.last_attachment_rowid with h | ⟨a, ha, h⟩
    · obtain ⟨a, ha⟩ := List.exists_mem_of_ne_nil _ hemp
      have h1 := mem_get_image_attachments ha
      have h2 := foldl_max_ge (fun a : Attachment => a.rowid) _ st.last_attachment_rowid a ha
      rw [h] at h2
      exact absurd (Nat.lt_of_lt_of_le h1 h2) (Nat.lt_irrefl _)
    · exact ⟨a, ha, h.symm⟩

/-- C1 witness: a non-full run over the one-row archive, starting from
watermark 3, satisfies the amended property. -/
theorem c1_witness :
    (3 : Nat) ≤
      (pipeline_main load_ok feat_unit fs_id sample_db
        { full := false, batch_size := 50, limit := none, dry_run := false }
        { last_attachment_rowid := 3, total_images_embedded := 0 }).finalState.last_attachment_rowid ∧
    (get_image_attachments sample_db 3 none fs_id ≠ [] →
      (∀ a ∈ get_image_attachments sample_db 3 none fs_id,
        a.rowid ≤
          (pipeline_main load_ok feat_unit fs_id sample_db
            { full := false, batch_size := 50, limit := none, dry_run := false }
            { last_attachment_rowid := 3, total_images_embedded := 0 }).finalState.last_attachment_rowid) ∧
      ∃ a ∈ get_image_attachments sample_db 3 none fs_id,
        a.rowid =
          (pipeline_main load_ok feat_unit fs_id sample_db
            { full := false, batch_size := 50, limit := none, dry_run := false }
            { last_attachment_rowid := 3, total_images_embedded := 0 }).finalState.last_attachment_rowid) :=
  c1_watermark_monotone load_ok feat_unit fs_id sample_db
    { full := false, batch_size := 50, limit := none, dry_run := false }
    { last_attachment_rowid := 3, total_images_embedded := 0 } rfl (by norm_num)

/-- C2: a run starting from a persisted watermark that no archive record
exceeds fetches nothing, writes zero documents, never calls
`save_state`, and leaves the persisted cursor (watermark and cumulative
counter) unchanged. -/
theorem c2_second_run_noop {Img Vec : Type} (loadImg : String → Option Img)
    (features : Img → Vec) (fs : String → Option String) (db : List DbRow)
    (args : Args) (st : State) (hfull : args.full = false)
    (hdb : ∀ r ∈ db, r.rowid ≤ st.last_attachment_rowid) :
    pipeline_main loadImg features fs db args st =
      { finalState := st, savedState := false, written := [] } := by
  have hnil :=
    get_image_attachments_nil db st.last_attachment_rowid args.limit fs hdb
  have hsince : (if args.full = true then 0 else st.last_attachment_rowid) =
      st.last_attachment_rowid := by rw [hfull]; rfl
  unfold pipeline_main
  simp only [hsince, hnil, List.isEmpty_nil, if_true]

/-- C2 witness: re-running over the one-row archive (max rowid 5) from
persisted watermark 5 is a no-op. -/
theorem c2_witness :
    pipeline_main load_ok feat_unit fs_id sample_db
      { full := false, batch_size := 50, limit := none, dry_run := false }
      { last_attachment_rowid := 5, total_images_embedded := 11 } =
    { finalState := { last_attachment_rowid := 5, total_images_embedded := 11 },
      savedState := false, written := [] } :=
  c2_second_run_noop load_ok feat_unit fs_id sample_db
    { full := false, batch_size := 50, limit := none, dry_run := false }
    { last_attachment_rowid := 5, total_images_embedded := 11 } rfl (by decide)

/-- C7 counterexample: a dry run over the one-row archive starting from
watermark 0 writes no document but DOES call `save_state` and changes
the persisted cursor — `main` runs the state update unconditionally
(`embed-images.py` lines 361-367), gating only the index writes on
`--dry-run`. -/
theorem c7_counterexample :
    (pipeline_main load_ok feat_unit fs_id sample_db
      { full := false, batch_size := 50, limit := none, dry_run := true }
      { last_attachment_rowid := 0, total_images_embedded := 0 }).savedState = true ∧
    (pipeline_main load_ok feat_unit fs_id sample_db
      { full := false, batch_size := 50, limit := none, dry_run := true }
      { last_attachment_rowid := 0, total_images_embedded := 0 }).finalState ≠
      { last_attachment_rowid := 0, total_images_embedded := 0 } ∧
    (pipeline_main load_ok feat_unit fs_id sample_db
      { full := false, batch_size := 50, limit := none, dry_run := true }
      { last_attachment_rowid := 0, total_images_embedded := 0 }).written = [] := by
  decide

/-- C7 (amended): in dry-run mode the pipeline performs reading and
embedding and writes no document to the index, but it does NOT suppress
state persistence: the persisted cursor is updated exactly as in the
corresponding non-dry run (and `save_state` is called in exactly the
same situations). -/
theorem c7_dry_run_amended {Img Vec : Type} (loadImg : String → Option Img)
    (features : Img → Vec) (fs : String → Option String) (db : List DbRow)
    (args : Args) (st : State) (hdry : args.dry_run = true) :
    (pipeline_main loadImg features fs db args st).written = [] ∧
    (pipeline_main loadImg features fs db args st).finalState =
      (pipeline_main loadImg features fs db { args with dry_run := false } st).finalState ∧
    (pipeline_main loadImg features fs db args st).savedState =
      (pipeline_main loadImg features fs db { args with dry_run := false } st).savedState := by
  by_cases hemp : get_image_attachments db
      (if args.full = true then 0 else st.last_attachment_rowid) args.limit fs = []
  · have h1 : pipeline_main loadImg features fs db args st =
        { finalState := st, savedState := false, written := [] } := by
      unfold pipeline_main
      simp only [hemp, List.isEmpty_nil, if_true]
    have h2 : pipeline_main loadImg features fs db { args with dry_run := false } st =
        { finalState := st, savedState := false, written := [] } := by
      unfold pipeline_main
      simp only [hemp, List.isEmpty_nil, if_true]
    rw [h1, h2]
    exact ⟨rfl, rfl, rfl⟩
  · have hne : (get_image_attachments db
        (if args.full = true then 0 else st.last_attachment_rowid)
        args.limit fs).isEmpty = false := List.isEmpty_eq_false.mpr hemp
    unfold pipeline_main
    simp only [hdry, hne, Bool.false_eq_true, if_false]
    refine ⟨?_, ?_, trivial⟩
    · exact run_fold_written_dry loadImg features _ _ _ _
    · rw [State.mk.injEq]
      constructor
      · rw [run_fold_max, run_fold_max]
      · rw [run_fold_fst, run_fold_fst]

/-- C7 witness: the amended statement at a concrete dry run over the
one-row archive. -/
theorem c7_witness :
    (pipeline_main load_ok feat_unit fs_id sample_db
      { full := false, batch_size := 50, limit := none, dry_run := true }
      { last_attachment_rowid := 0, total_images_embedded := 0 }).written = [] ∧
    (pipeline_main load_ok feat_unit fs_id sample_db
      { full := false, batch_size := 50, limit := none, dry_run := true }
      { last_attachment_rowid := 0, total_images_embedded := 0 }).finalState =
      (pipeline_main load_ok feat_unit fs_id sample_db
        { full := false, batch_size := 50, limit := none, dry_run := false }
        { last_attachment_rowid := 0, total_images_embedded := 0 }).finalState ∧
    (pipeline_main load_ok feat_unit fs_id sample_db
      { full := false, batch_size := 50, limit := none, dry_run := true }
      { last_attachment_rowid := 0, total_images_embedded := 0 }).savedState =
      (pipeline_main load_ok feat_unit fs_id sample_db
        { full := false, batch_size := 50, limit := none, dry_run := false }
        { last_attachment_rowid := 0, total_images_embedded := 0 }).savedState :=
  c7_dry_run_amended load_ok feat_unit fs_id sample_db
    { full := false, batch_size := 50, limit := none, dry_run := true }
    { last_attachment_rowid := 0, total_images_embedded := 0 } rfl

end ImSearch
